import Mathlib

/-!
Shallow embedding of the Abyssal grid scoring engine
(src/mining_optimizer.py and src/app/optimizer.py, plus the weight
defaults in src/mining_optimizer.py main() and src/app/main.py get_grid).

Python floats are modelled as rationals (all constants appearing in the
engine are exactly representable), Python ints as integers, raised
exceptions as Except.error.  A decoded list-literal element is an
Entry; `ast.literal_eval` results are modelled at the granularity the
engine distinguishes (numbers, strings, None); nested containers, which
no claim exercises, are outside the model.
-/

/-- One element of a decoded Python list literal: None, a number, or a
string. -/
inductive Entry
  | null
  | num (q : ℚ)
  | str (s : String)
deriving DecidableEq

/-- A value produced by `_safe_eval`: either a Python list of elements or
a bare Python string (the branch that returns `val` unchanged). -/
inductive PyVal
  | list (es : List Entry)
  | str (s : String)
deriving DecidableEq

/-- The raw text of one CSV cell holding a collection field, abstracted to
the cases `_safe_eval` distinguishes:
* `empty`: the empty string (falsy in Python);
* `scalar s`: non-empty text that does not both start with a left bracket
  and end with a right bracket;
* `listLit es`: bracket-delimited text on which `ast.literal_eval`
  succeeds and returns the list `es`;
* `badLit`: bracket-delimited text on which `ast.literal_eval` raises
  `ValueError` or `SyntaxError`. -/
inductive RawText
  | empty
  | scalar (s : String)
  | listLit (es : List Entry)
  | badLit
deriving DecidableEq

/-- `AbyssalOptimizer._safe_eval` applied to `row.get(key, '[]')`: a
missing key gives the default text `'[]'`, which evaluates to the empty
list.  Source: src/mining_optimizer.py lines 28-38 (identical in
src/app/optimizer.py lines 20-29). -/
def safe_eval : Option RawText → PyVal
  | none => PyVal.list []
  | some RawText.empty => PyVal.list []
  | some (RawText.scalar s) => PyVal.str s
  | some (RawText.listLit es) => PyVal.list es
  | some RawText.badLit => PyVal.list []

/-- Decimal digit test on a character code. -/
def isDigitChar (c : Char) : Bool :=
  48 ≤ c.toNat && c.toNat ≤ 57

/-- Digit string to natural number. -/
def natOfDigits (cs : List Char) : ℕ :=
  cs.foldl (fun n c => 10 * n + (c.toNat - 48)) 0

/-- Split a character list at every dot (code 46). -/
def splitDot : List Char → List (List Char)
  | [] => [[]]
  | c :: rest =>
      let r := splitDot rest
      if c.toNat = 46 then [] :: r
      else (c :: r.headD []) :: r.tail

/-- Strip an optional leading sign, returning the sign factor and the
remaining characters. -/
def stripSign (cs : List Char) : ℚ × List Char :=
  match cs with
  | c :: rest =>
      if c.toNat = 45 then (-1, rest)
      else if c.toNat = 43 then (1, rest)
      else (1, cs)
  | [] => (1, cs)

/-- Python `float(s)` on a string, modelled for plain decimal notation:
an optional sign, then digits with an optional decimal point (at least
one digit overall).  Returns none where Python raises `ValueError`. -/
def parseFloat? (s : String) : Option ℚ :=
  let sb := stripSign s.data
  match splitDot sb.2 with
  | [ip] =>
      if decide (ip ≠ []) && ip.all isDigitChar then
        some (sb.1 * (natOfDigits ip : ℚ))
      else none
  | [ip, fp] =>
      if (decide (ip ≠ []) || decide (fp ≠ [])) && ip.all isDigitChar && fp.all isDigitChar then
        some (sb.1 * ((natOfDigits ip : ℚ) + (natOfDigits fp : ℚ) / (10 ^ fp.length)))
      else none
  | _ => none

/-- Python `int(s)` on a string: optional sign then digits. -/
def parseInt? (s : String) : Option ℤ :=
  let sb := stripSign s.data
  if decide (sb.2 ≠ []) && sb.2.all isDigitChar then
    some ((if sb.1 = -1 then (-1 : ℤ) else 1) * (natOfDigits sb.2 : ℤ))
  else none

/-- `AbyssalOptimizer._get_float`: empty string is falsy and yields 0.0;
otherwise `float(val)`, with `ValueError` caught and turned into 0.0.
Source: src/mining_optimizer.py lines 40-47. -/
def get_float (val : String) : ℚ :=
  if val = "" then 0
  else
    match parseFloat? val with
    | some q => q
    | none => 0

/-- Python `float(x)` on a list element; `None` and non-numeric strings
raise (the call sites guard `None` explicitly). -/
def pyFloat : Entry → Except String ℚ
  | Entry.num q => Except.ok q
  | Entry.null => Except.error "TypeError: float() argument is None"
  | Entry.str s =>
      match parseFloat? s with
      | some q => Except.ok q
      | none => Except.error "ValueError: could not convert string to float"

/-- Python `len` on a list-or-string value. -/
def pyLen : PyVal → ℕ
  | PyVal.list l => l.length
  | PyVal.str s => s.length

/-- Python indexing `x[i]` on a list-or-string value (call sites guard
`i < len(x)`); indexing a string yields a one-character string. -/
def pyGetE : PyVal → ℕ → Entry
  | PyVal.list l, i => l.getD i Entry.null
  | PyVal.str s, i => Entry.str (String.mk [s.data.getD i (Char.ofNat 32)])

/-- One guarded conversion in the total-value loop:
`float(x[i]) if i < len(x) and x[i] is not None else 0`.
Source: src/mining_optimizer.py lines 81-83. -/
def idx_float (x : PyVal) (i : ℕ) : Except String ℚ :=
  if i < pyLen x ∧ pyGetE x i ≠ Entry.null then pyFloat (pyGetE x i)
  else Except.ok 0

/-- One iteration of the total-value loop: `total_value += v * a * p`.
Source: src/mining_optimizer.py lines 80-84. -/
def resTerm (rv ra rp : PyVal) (i : ℕ) : Except String ℚ :=
  (idx_float rv i).bind fun v =>
  (idx_float ra i).bind fun a =>
  (idx_float rp i).bind fun p =>
  Except.ok (v * a * p)

/-- The `for i in range(count)` accumulation of the total-value loop. -/
def totalGo (rv ra rp : PyVal) : List ℕ → ℚ → Except String ℚ
  | [], acc => Except.ok acc
  | i :: is, acc => (resTerm rv ra rp i).bind fun t => totalGo rv ra rp is (acc + t)

/-- Resource value aggregation: `total_value = 0.0`, then the indexed
loop runs only when `res_values` is a list, over `range(len(res_values))`.
Source: src/mining_optimizer.py lines 77-84. -/
def total_value (rv ra rp : PyVal) : Except String ℚ :=
  match rv with
  | PyVal.list l => totalGo rv ra rp (List.range l.length) 0
  | PyVal.str _ => Except.ok 0

/-- `[float(d) for d in lst if d is not None]`: left-to-right, skipping
exactly the `None` elements, raising at the first unconvertible one. -/
def listFloats : List Entry → Except String (List ℚ)
  | [] => Except.ok []
  | d :: ds =>
      if d = Entry.null then listFloats ds
      else (pyFloat d).bind fun q => (listFloats ds).bind fun qs => Except.ok (q :: qs)

/-- Extraction difficulty: mean of the cleaned list when the value is a
non-empty list, else 0.  Source: src/mining_optimizer.py lines 87-92. -/
def avg_difficulty (v : PyVal) : Except String ℚ :=
  match v with
  | PyVal.list l =>
      if l.isEmpty then Except.ok 0
      else
        (listFloats l).bind fun clean =>
        Except.ok (if clean.isEmpty then 0 else clean.sum / (clean.length : ℚ))
  | PyVal.str _ => Except.ok 0

/-- `sum([float(x) for x in lst if x is not None])` when the value is a
list, else 0.  Source: src/mining_optimizer.py lines 95-113. -/
def sum_skip_none (v : PyVal) : Except String ℚ :=
  match v with
  | PyVal.list l => (listFloats l).bind fun fs => Except.ok fs.sum
  | PyVal.str _ => Except.ok 0

/-- `severity_map = {'low': 1, 'medium': 2, 'high': 3, 'extreme': 5}`,
as the partial lookup used by `h in severity_map`.
Source: src/mining_optimizer.py line 64. -/
def severity_map (e : Entry) : Option ℤ :=
  match e with
  | Entry.str s =>
      if s = "low" then some 1
      else if s = "medium" then some 2
      else if s = "high" then some 3
      else if s = "extreme" then some 5
      else none
  | _ => none

/-- Hazard aggregation: starts at 0, adds `severity_map[h]` for each
element found in the map, when the value is a list.
Source: src/mining_optimizer.py lines 118-123. -/
def hazard_score (v : PyVal) : ℤ :=
  match v with
  | PyVal.list l =>
      l.foldl (fun acc h =>
        match severity_map h with
        | some w => acc + w
        | none => acc) 0
  | PyVal.str _ => 0

/-- A raw CSV row as the engine reads it: `row` and `col` are required
by the engine (it indexes them unconditionally); every other field may be
absent from the table. -/
structure Row where
  row : String
  col : String
  lat : Option String
  lon : Option String
  depth_m : Option String
  pressure_atm : Option String
  temperature_c : Option String
  biome : Option String
  coral_coral_cover_pct : Option String
  resource_economic_value : Option RawText
  resource_abundance : Option RawText
  resource_purity : Option RawText
  resource_extraction_difficulty : Option RawText
  resource_environmental_impact : Option RawText
  life_density : Option RawText
  life_threat_level : Option RawText
  hazard_severity : Option RawText
  hazard_type : Option RawText
  resource_type : Option RawText
  life_species : Option RawText
deriving DecidableEq

/-- The weight configuration `{value, difficulty, impact, hazard}`. -/
structure Weights where
  value : ℚ
  difficulty : ℚ
  impact : ℚ
  hazard : ℚ
deriving DecidableEq

/-- The engine-embedded default weights used when `calculate_scores` is
called with `weights=None`.  Source: src/mining_optimizer.py lines 53-59. -/
def default_weights : Weights :=
  { value := 1, difficulty := 1, impact := 2, hazard := 2 }

/-- The CLI defaults of the arguments w_val, w_diff, w_env, w_haz in
`main()`.  Source: src/mining_optimizer.py lines 275-278. -/
def cli_default_weights : Weights :=
  { value := 1, difficulty := 1, impact := 5, hazard := 10 }

/-- The weights `get_grid` passes to the engine.
Source: src/app/main.py lines 188-193. -/
def grid_weights : Weights :=
  { value := 1, difficulty := 1, impact := 2, hazard := 2 }

/-- The scored record appended per row by the mining variant.
Source: src/mining_optimizer.py lines 131-143. -/
structure Scored where
  row : String
  col : String
  lat : String
  lon : String
  score : ℚ
  total_value : ℚ
  difficulty : ℚ
  env_impact : ℚ
  hazard_score : ℤ
  depth : String
  biome : String
deriving DecidableEq

/-- The per-row body of `calculate_scores` in src/mining_optimizer.py
lines 68-143: sub-metric aggregation, score composition, and the output
record with raw-text pass-through fields. -/
def scoreRow (r : Row) (w : Weights) : Except String Scored :=
  (total_value (safe_eval r.resource_economic_value)
               (safe_eval r.resource_abundance)
               (safe_eval r.resource_purity)).bind fun tv =>
  (avg_difficulty (safe_eval r.resource_extraction_difficulty)).bind fun diff =>
  (sum_skip_none (safe_eval r.resource_environmental_impact)).bind fun ri =>
  let coral := get_float (r.coral_coral_cover_pct.getD "0")
  (sum_skip_none (safe_eval r.life_density)).bind fun ld =>
  (sum_skip_none (safe_eval r.life_threat_level)).bind fun tl =>
  let env := ri + coral / 10 + ld * 10 + tl * 5
  let hz := hazard_score (safe_eval r.hazard_severity)
  let score := tv * w.value - diff * w.difficulty - env * w.impact - (hz : ℚ) * w.hazard
  Except.ok
    { row := r.row, col := r.col
      lat := r.lat.getD "0.0", lon := r.lon.getD "0.0"
      score := score, total_value := tv, difficulty := diff
      env_impact := env, hazard_score := hz
      depth := r.depth_m.getD "0", biome := r.biome.getD "unknown" }

/-- The scoring loop: processes rows in order, returning the records
appended before the first raised exception, and that exception if any
(Python leaves `self.scored_data` holding the processed records when a
row raises). -/
def calcList : List Row → Weights → List Scored × Option String
  | [], _ => ([], none)
  | r :: rs, w =>
      match scoreRow r w with
      | Except.error e => ([], some e)
      | Except.ok sc =>
          let rest := calcList rs w
          (sc :: rest.1, rest.2)

/-- `list.sort` insertion step for a stable descending sort: the element
being inserted precedes exactly the elements whose key is no larger. -/
def insertDesc {α : Type} (k : α → ℚ) (x : α) : List α → List α
  | [] => [x]
  | y :: ys => if k y ≤ k x then x :: y :: ys else y :: insertDesc k x ys

/-- Python `list.sort(key=..., reverse=True)`: a stable sort, descending
in the key.  The stable descending permutation of a list is unique, so
any stable sort computes it; we use insertion sort.
Source: src/mining_optimizer.py line 146 and src/app/optimizer.py
line 139. -/
def stableSortDesc {α : Type} (k : α → ℚ) : List α → List α
  | [] => []
  | x :: xs => insertDesc k x (stableSortDesc k xs)

/-- `AbyssalOptimizer.calculate_scores` of src/mining_optimizer.py lines
49-147, as a function of the loaded rows and the optional weights: scores
every row, then sorts by score descending; a raised exception propagates.
-/
def calculate_scores (data : List Row) (weights : Option Weights) : Except String (List Scored) :=
  let w := weights.getD default_weights
  match calcList data w with
  | (res, none) => Except.ok (stableSortDesc (fun s => s.score) res)
  | (_, some e) => Except.error e

/-- The mutable state of an `AbyssalOptimizer` instance that
`calculate_scores` reads or writes. -/
structure OptimizerState where
  data : List Row
  scored_data : List Scored
deriving DecidableEq

/-- `calculate_scores` as a state transformer on the optimizer object:
`self.scored_data` is reset and rebuilt from `self.data`; on an
exception the processed records remain (unsorted) and the exception
propagates. -/
def calculate_scores_run (s : OptimizerState) (weights : Option Weights) :
    OptimizerState × Except String (List Scored) :=
  let w := weights.getD default_weights
  match calcList s.data w with
  | (res, none) =>
      let out := stableSortDesc (fun x => x.score) res
      ({ s with scored_data := out }, Except.ok out)
  | (res, some e) => ({ s with scored_data := res }, Except.error e)

/-- `AbyssalOptimizer.load_data` (src/mining_optimizer.py lines 13-26,
src/app/optimizer.py lines 10-18), with the filesystem abstracted as the
optional parsed content of `self.filepath`: a missing file raises
`FileNotFoundError`, which is caught and turned into `False`; otherwise
the rows are stored and `True` is returned. -/
def load_data (file : Option (List Row)) : Bool × List Row :=
  match file with
  | none => (false, [])
  | some rows => (true, rows)

/-- The scored record built per row by the app variant
(src/app/optimizer.py lines 112-133): identity and scalar fields are
converted with bare `int()`/`float()`, in source order. -/
structure AppScored where
  row : ℤ
  col : ℤ
  lat : ℚ
  lon : ℚ
  depth : ℚ
  biome : String
  pressure : ℚ
  temp : ℚ
  score : ℚ
  total_value : ℚ
  difficulty : ℚ
  env_impact : ℚ
  hazard_score : ℤ
  hazards : PyVal
  resources : PyVal
  life : PyVal
deriving DecidableEq

/-- `float(row[key])` on a scalar field of the app variant: a missing
key raises `KeyError`, non-numeric text raises `ValueError`. -/
def pyFloatField (v : Option String) : Except String ℚ :=
  match v with
  | none => Except.error "KeyError"
  | some s =>
      match parseFloat? s with
      | some q => Except.ok q
      | none => Except.error "ValueError: could not convert string to float"

/-- `int(row[key])` on a required field of the app variant. -/
def pyIntField (s : String) : Except String ℤ :=
  match parseInt? s with
  | some z => Except.ok z
  | none => Except.error "ValueError: invalid literal for int"

/-- The per-row body of `calculate_scores` in src/app/optimizer.py lines
46-133: the same sub-metric aggregation and score as the mining variant,
then the richer output record whose scalar fields are converted with
bare `int()`/`float()` in dict-literal order. -/
def app_scoreRow (r : Row) (w : Weights) : Except String AppScored :=
  (total_value (safe_eval r.resource_economic_value)
               (safe_eval r.resource_abundance)
               (safe_eval r.resource_purity)).bind fun tv =>
  (avg_difficulty (safe_eval r.resource_extraction_difficulty)).bind fun diff =>
  (sum_skip_none (safe_eval r.resource_environmental_impact)).bind fun ri =>
  let coral := get_float (r.coral_coral_cover_pct.getD "0")
  (sum_skip_none (safe_eval r.life_density)).bind fun ld =>
  (sum_skip_none (safe_eval r.life_threat_level)).bind fun tl =>
  let env := ri + coral / 10 + ld * 10 + tl * 5
  let hz := hazard_score (safe_eval r.hazard_severity)
  let score := tv * w.value - diff * w.difficulty - env * w.impact - (hz : ℚ) * w.hazard
  let hazards := safe_eval r.hazard_type
  let resources := safe_eval r.resource_type
  let life := safe_eval r.life_species
  (pyIntField r.row).bind fun rowN =>
  (pyIntField r.col).bind fun colN =>
  (pyFloatField r.lat).bind fun lat =>
  (pyFloatField r.lon).bind fun lon =>
  (pyFloatField r.depth_m).bind fun depth =>
  (match r.biome with
   | some b => Except.ok b
   | none => Except.error "KeyError").bind fun biome =>
  (pyFloatField r.pressure_atm).bind fun pressure =>
  (pyFloatField r.temperature_c).bind fun temp =>
  Except.ok
    { row := rowN, col := colN, lat := lat, lon := lon, depth := depth
      biome := biome, pressure := pressure, temp := temp
      score := score, total_value := tv, difficulty := diff
      env_impact := env, hazard_score := hz
      hazards := hazards, resources := resources, life := life }

/-- The row loop of the app variant: scores rows in order, raising at
the first failing row. -/
def appCalcGo : List Row → Weights → Except String (List AppScored)
  | [], _ => Except.ok []
  | r :: rs, w =>
      (app_scoreRow r w).bind fun sc =>
      (appCalcGo rs w).bind fun rest =>
      Except.ok (sc :: rest)

/-- `AbyssalOptimizer.calculate_scores` of src/app/optimizer.py lines
39-141: weights are required; the loop stops at the first raised
exception; on success the records are sorted by score descending. -/
def app_calculate_scores (data : List Row) (w : Weights) : Except String (List AppScored) :=
  (appCalcGo data w).bind fun scored =>
  Except.ok (stableSortDesc (fun s => s.score) scored)

/-- Numeric value of an entry under the treat-missing-as-zero reading:
a number is itself, `None` (and anything else) counts 0. -/
def entryQ : Entry → ℚ
  | Entry.num q => q
  | _ => 0

/-- Entry is a number or `None` (the entries the engine aggregates
without raising). -/
def isNumOrNull : Entry → Bool
  | Entry.null => true
  | Entry.num _ => true
  | Entry.str _ => false

/-- The value is a decoded list all of whose entries are numbers or
`None`. -/
def cleanListB : PyVal → Bool
  | PyVal.list l => l.all isNumOrNull
  | PyVal.str _ => false

/-- The value is either a bare string (which the aggregations treat as
absent) or a decoded list of numbers-or-`None`. -/
def cleanB : PyVal → Bool
  | PyVal.list l => l.all isNumOrNull
  | PyVal.str _ => true

/-- Every numeric collection field of the row decodes to data the
aggregator can convert: the three positionally-combined resource
sequences are lists of numbers-or-`None`, and the remaining summed or
averaged sequences contain numbers-or-`None` when they are lists. -/
def rowCleanB (r : Row) : Bool :=
  cleanListB (safe_eval r.resource_economic_value) &&
  cleanListB (safe_eval r.resource_abundance) &&
  cleanListB (safe_eval r.resource_purity) &&
  cleanB (safe_eval r.resource_extraction_difficulty) &&
  cleanB (safe_eval r.resource_environmental_impact) &&
  cleanB (safe_eval r.life_density) &&
  cleanB (safe_eval r.life_threat_level)

/-- Modelled from the spec (section 4.2): total value as the sum over
exactly the indexes in range for all three sequences of
value times abundance times purity, missing (`None`) entries counting
zero. -/
def spec_total_value (vl al pl : List Entry) : ℚ :=
  ((List.range (min vl.length (min al.length pl.length))).map
    (fun i => entryQ (vl.getD i Entry.null) * entryQ (al.getD i Entry.null) *
      entryQ (pl.getD i Entry.null))).sum

/-- The ordering a stable descending sort establishes: a strictly larger
key, or an equal key with the pre-existing relation `Q` (for stability,
`Q` is instantiated with original-position order). -/
def sortRel {α : Type} (k : α → ℚ) (Q : α → α → Prop) (a b : α) : Prop :=
  k b < k a ∨ (k a = k b ∧ Q a b)

/-- A row with every optional field absent except the ones set by the
named arguments' defaults; used as the base of the concrete test rows. -/
def baseRow : Row :=
  { row := "0", col := "0",
    lat := none, lon := none, depth_m := none, pressure_atm := none,
    temperature_c := none, biome := none, coral_coral_cover_pct := none,
    resource_economic_value := none, resource_abundance := none,
    resource_purity := none, resource_extraction_difficulty := none,
    resource_environmental_impact := none, life_density := none,
    life_threat_level := none, hazard_severity := none,
    hazard_type := none, resource_type := none, life_species := none }

/-- The concrete scenario of spec section 8: resource value, abundance
and purity `[10.0]`, `[2.0]`, `[0.5]`; extraction difficulty
`[4.0, 6.0]`; hazard severities the two strings high and low; all
environmental and coral inputs absent. -/
def c2Row : Row :=
  { baseRow with
    row := "1"
    col := "2"
    resource_economic_value := some (RawText.listLit [Entry.num 10])
    resource_abundance := some (RawText.listLit [Entry.num 2])
    resource_purity := some (RawText.listLit [Entry.num (1/2)])
    resource_extraction_difficulty := some (RawText.listLit [Entry.num 4, Entry.num 6])
    hazard_severity := some (RawText.listLit [Entry.str "high", Entry.str "low"]) }

/-- The scored record `calculate_scores` produces for `c2Row` under
weights value 1, difficulty 1, impact 2, hazard 2. -/
def c2Scored : Scored :=
  { row := "1", col := "2", lat := "0.0", lon := "0.0",
    score := -3, total_value := 10, difficulty := 5, env_impact := 0,
    hazard_score := 4, depth := "0", biome := "unknown" }

/-- A row whose extraction-difficulty list literal contains the
non-numeric text entry soft. -/
def c1Row : Row :=
  { baseRow with
    resource_extraction_difficulty := some (RawText.listLit [Entry.str "soft"]) }

/-- A row whose hazard_severity cell holds the bare (non-bracketed) word
high. -/
def c4Row : Row :=
  { baseRow with
    row := "3"
    col := "4"
    hazard_severity := some (RawText.scalar "high") }

/-- A row whose lat cell holds the non-numeric text abc (all other
scalar fields well-formed for the app variant). -/
def c6Row : Row :=
  { baseRow with
    row := "1"
    col := "2"
    lat := some "abc"
    lon := some "0.0"
    depth_m := some "5"
    pressure_atm := some "1"
    temperature_c := some "2"
    biome := some "plain" }

theorem insertDesc_perm {α : Type} (k : α → ℚ) (x : α) (l : List α) :
    (insertDesc k x l).Perm (x :: l) := by
  induction l with
  | nil => simp [insertDesc]
  | cons y ys ih =>
    simp only [insertDesc]
    split
    · exact List.Perm.refl _
    · exact (ih.cons y).trans (List.Perm.swap x y ys)

theorem stableSortDesc_perm {α : Type} (k : α → ℚ) (l : List α) :
    (stableSortDesc k l).Perm l := by
  induction l with
  | nil => simp [stableSortDesc]
  | cons x xs ih =>
    exact (insertDesc_perm k x (stableSortDesc k xs)).trans (ih.cons x)

theorem pairwise_insertDesc {α : Type} (k : α → ℚ) (Q : α → α → Prop) (x : α) :
    ∀ l : List α, l.Pairwise (sortRel k Q) → (∀ y ∈ l, Q x y) →
      (insertDesc k x l).Pairwise (sortRel k Q)
  | [], _, _ => by simp [insertDesc, sortRel]
  | y :: ys, hl, hx => by
    rw [List.pairwise_cons] at hl
    obtain ⟨hy, hys⟩ := hl
    by_cases hk : k y ≤ k x
    · rw [insertDesc, if_pos hk]
      refine List.Pairwise.cons ?_ (List.Pairwise.cons hy hys)
      intro z hz
      rcases List.mem_cons.mp hz with hzy | hz2
      · subst hzy
        rcases lt_or_eq_of_le hk with h | h
        · exact Or.inl h
        · exact Or.inr ⟨h.symm, hx z (List.mem_cons_self _ _)⟩
      · rcases hy z hz2 with h | ⟨he, _⟩
        · exact Or.inl (lt_of_lt_of_le h hk)
        · have hzx : k z ≤ k x := he ▸ hk
          rcases lt_or_eq_of_le hzx with h2 | h2
          · exact Or.inl h2
          · exact Or.inr ⟨h2.symm, hx z (List.mem_cons_of_mem y hz2)⟩
    · rw [insertDesc, if_neg hk]
      refine List.Pairwise.cons ?_
        (pairwise_insertDesc k Q x ys hys (fun z hz => hx z (List.mem_cons_of_mem y hz)))
      intro z hz
      have hmem := (insertDesc_perm k x ys).mem_iff.mp hz
      rcases List.mem_cons.mp hmem with rfl | hz2
      · exact Or.inl (lt_of_not_le hk)
      · exact hy z hz2

theorem pairwise_stableSortDesc {α : Type} (k : α → ℚ) (Q : α → α → Prop) :
    ∀ l : List α, l.Pairwise Q → (stableSortDesc k l).Pairwise (sortRel k Q)
  | [], _ => by simp [stableSortDesc]
  | x :: xs, hl => by
    rw [List.pairwise_cons] at hl
    refine pairwise_insertDesc k Q x _ (pairwise_stableSortDesc k Q xs hl.2) ?_
    intro y hy
    exact hl.1 y ((stableSortDesc_perm k xs).mem_iff.mp hy)

theorem insertDesc_map {α β : Type} (k : β → ℚ) (f : α → β) (x : α) :
    ∀ l : List α, insertDesc k (f x) (l.map f) = (insertDesc (fun a => k (f a)) x l).map f
  | [] => rfl
  | y :: ys => by
    simp only [List.map_cons, insertDesc]
    by_cases h : k (f y) ≤ k (f x)
    · rw [if_pos h, if_pos h, List.map_cons, List.map_cons]
    · rw [if_neg h, if_neg h, List.map_cons, insertDesc_map k f x ys]

theorem stableSortDesc_map {α β : Type} (k : β → ℚ) (f : α → β) :
    ∀ l : List α, stableSortDesc k (l.map f) = (stableSortDesc (fun a => k (f a)) l).map f
  | [] => rfl
  | x :: xs => by
    simp only [List.map_cons, stableSortDesc]
    rw [stableSortDesc_map k f xs, insertDesc_map]

theorem le_fst_of_mem_enumFrom {α : Type} :
    ∀ (l : List α) (n : ℕ) (p : ℕ × α), p ∈ List.enumFrom n l → n ≤ p.1
  | [], _, _, h => by simp [List.enumFrom] at h
  | x :: xs, n, p, h => by
    simp only [List.enumFrom] at h
    rcases List.mem_cons.mp h with hp | hp
    · subst hp; exact le_refl n
    · exact Nat.le_of_succ_le (le_fst_of_mem_enumFrom xs (n + 1) p hp)

theorem pairwise_enumFrom {α : Type} :
    ∀ (l : List α) (n : ℕ), (List.enumFrom n l).Pairwise (fun a b => a.1 < b.1)
  | [], _ => by simp [List.enumFrom]
  | x :: xs, n => by
    simp only [List.enumFrom]
    refine List.Pairwise.cons ?_ (pairwise_enumFrom xs (n + 1))
    intro p hp
    exact Nat.lt_of_lt_of_le (Nat.lt_succ_self n) (le_fst_of_mem_enumFrom xs (n + 1) p hp)

theorem pairwise_enum {α : Type} (l : List α) :
    l.enum.Pairwise (fun a b => a.1 < b.1) :=
  pairwise_enumFrom l 0

theorem pairwise_trivial {α : Type} : ∀ l : List α, l.Pairwise (fun _ _ => True)
  | [] => List.Pairwise.nil
  | _ :: xs => List.Pairwise.cons (fun _ _ => trivial) (pairwise_trivial xs)

/-- C5: the ranker used by `calculate_scores` returns exactly the input
records (a permutation, no filtering), ordered by score descending, and
it is stable: tagging each record with its input position, two records
with equal score appear in increasing input-position order, and
dropping the tags recovers the untagged ranking. -/
theorem C5_ranker_perm_sorted_stable (l : List Scored) :
    (stableSortDesc (fun s => s.score) l).Perm l
    ∧ (stableSortDesc (fun s => s.score) l).Pairwise (fun a b => b.score ≤ a.score)
    ∧ (stableSortDesc (fun p : ℕ × Scored => p.2.score) l.enum).Pairwise
        (fun a b => a.2.score = b.2.score → a.1 < b.1)
    ∧ stableSortDesc (fun s => s.score) l
        = (stableSortDesc (fun p : ℕ × Scored => p.2.score) l.enum).map Prod.snd := by
  refine ⟨stableSortDesc_perm _ l, ?_, ?_, ?_⟩
  · have h := pairwise_stableSortDesc (fun s : Scored => s.score) (fun _ _ => True) l
      (pairwise_trivial l)
    refine h.imp ?_
    intro a b hab
    rcases hab with hlt | ⟨heq, _⟩
    · exact le_of_lt hlt
    · exact le_of_eq heq.symm
  · have h := pairwise_stableSortDesc (fun p : ℕ × Scored => p.2.score)
      (fun a b => a.1 < b.1) l.enum (pairwise_enum l)
    refine h.imp ?_
    intro a b hab heq
    rcases hab with hlt | ⟨_, hidx⟩
    · exact absurd heq (ne_of_gt (show a.2.score > b.2.score from hlt))
    · exact hidx
  · have hmap := stableSortDesc_map (fun s : Scored => s.score) Prod.snd l.enum
    rw [List.enum_map_snd] at hmap
    exact hmap

theorem entry_num_of_clean {e : Entry} (he : isNumOrNull e = true)
    (hn : e ≠ Entry.null) : ∃ q, e = Entry.num q := by
  cases e with
  | null => exact absurd rfl hn
  | num q => exact ⟨q, rfl⟩
  | str s => simp [isNumOrNull] at he

theorem idx_float_clean (l : List Entry) (h : l.all isNumOrNull = true) (i : ℕ) :
    idx_float (PyVal.list l) i = Except.ok (entryQ (l.getD i Entry.null)) := by
  unfold idx_float
  simp only [pyGetE, pyLen]
  by_cases hn : l.getD i Entry.null = Entry.null
  · rw [if_neg (fun hc => hc.2 hn), hn]
    rfl
  · have hi : i < l.length := by
      by_contra hge
      exact hn (List.getD_eq_default l Entry.null (Nat.le_of_not_lt hge))
    have hmem : l.getD i Entry.null ∈ l := by
      rw [List.getD_eq_getElem l Entry.null hi]
      exact List.getElem_mem hi
    obtain ⟨q, hq⟩ := entry_num_of_clean (List.all_eq_true.mp h _ hmem) hn
    rw [if_pos ⟨hi, hn⟩, hq]
    rfl

theorem resTerm_clean (vl al pl : List Entry)
    (hv : vl.all isNumOrNull = true) (ha : al.all isNumOrNull = true)
    (hp : pl.all isNumOrNull = true) (i : ℕ) :
    resTerm (PyVal.list vl) (PyVal.list al) (PyVal.list pl) i =
      Except.ok (entryQ (vl.getD i Entry.null) * entryQ (al.getD i Entry.null) *
        entryQ (pl.getD i Entry.null)) := by
  rw [resTerm, idx_float_clean vl hv, idx_float_clean al ha, idx_float_clean pl hp]
  rfl

theorem totalGo_clean (vl al pl : List Entry)
    (hv : vl.all isNumOrNull = true) (ha : al.all isNumOrNull = true)
    (hp : pl.all isNumOrNull = true) :
    ∀ (is : List ℕ) (acc : ℚ),
      totalGo (PyVal.list vl) (PyVal.list al) (PyVal.list pl) is acc
        = Except.ok (acc + (is.map (fun i => entryQ (vl.getD i Entry.null) *
            entryQ (al.getD i Entry.null) * entryQ (pl.getD i Entry.null))).sum)
  | [], acc => by simp [totalGo]
  | i :: is, acc => by
    rw [totalGo, resTerm_clean vl al pl hv ha hp i]
    show totalGo _ _ _ is _ = _
    rw [totalGo_clean vl al pl hv ha hp is]
    rw [List.map_cons, List.sum_cons]
    congr 1
    ring

theorem sum_map_range_eq_of_zero_tail (f : ℕ → ℚ) (m n : ℕ) (hmn : m ≤ n)
    (h0 : ∀ i, m ≤ i → f i = 0) :
    ((List.range n).map f).sum = ((List.range m).map f).sum := by
  induction n, hmn using Nat.le_induction with
  | base => rfl
  | succ n hmn ih =>
    rw [List.range_succ, List.map_append, List.sum_append]
    simp [h0 n hmn, ih]

theorem total_value_clean (vl al pl : List Entry)
    (hv : vl.all isNumOrNull = true) (ha : al.all isNumOrNull = true)
    (hp : pl.all isNumOrNull = true) :
    total_value (PyVal.list vl) (PyVal.list al) (PyVal.list pl)
      = Except.ok (spec_total_value vl al pl) := by
  rw [total_value, totalGo_clean vl al pl hv ha hp, spec_total_value]
  rw [zero_add]
  congr 1
  refine sum_map_range_eq_of_zero_tail _ _ _ (min_le_left _ _) ?_
  intro i hi
  rcases min_le_iff.mp hi with h | h
  · rw [List.getD_eq_default vl Entry.null h]
    simp [entryQ]
  · rcases min_le_iff.mp h with h2 | h2
    · rw [List.getD_eq_default al Entry.null h2]
      simp [entryQ]
    · rw [List.getD_eq_default pl Entry.null h2]
      simp [entryQ]

/-- C3: when the three resource sequences decode to lists containing
only numbers or missing (`None`, counted as zero) entries, the computed
total value equals the sum, over exactly the indexes in range for all
three sequences, of value times abundance times purity; indexes out of
range for any of the three contribute nothing although the loop runs
over the full length of the value sequence. -/
theorem C3_total_value_clipped (vl al pl : List Entry)
    (hv : vl.all isNumOrNull = true) (ha : al.all isNumOrNull = true)
    (hp : pl.all isNumOrNull = true) :
    total_value (PyVal.list vl) (PyVal.list al) (PyVal.list pl)
      = Except.ok (spec_total_value vl al pl) :=
  total_value_clean vl al pl hv ha hp

/-- Witness for C3 at sequences of mismatched lengths 2, 1, 3. -/
theorem C3_total_value_clipped_witness :
    total_value (PyVal.list [Entry.num 2, Entry.num 3])
        (PyVal.list [Entry.num 5])
        (PyVal.list [Entry.num 7, Entry.num 11, Entry.num 13])
      = Except.ok (spec_total_value [Entry.num 2, Entry.num 3] [Entry.num 5]
          [Entry.num 7, Entry.num 11, Entry.num 13]) :=
  C3_total_value_clipped _ _ _ (by decide) (by decide) (by decide)

theorem listFloats_clean : ∀ l : List Entry, l.all isNumOrNull = true →
    ∃ qs, listFloats l = Except.ok qs
  | [], _ => ⟨[], rfl⟩
  | d :: ds, h => by
    rw [List.all_cons, Bool.and_eq_true] at h
    obtain ⟨qs, hqs⟩ := listFloats_clean ds h.2
    rw [listFloats]
    by_cases hd : d = Entry.null
    · rw [if_pos hd]
      exact ⟨qs, hqs⟩
    · rw [if_neg hd]
      obtain ⟨q, hq⟩ := entry_num_of_clean h.1 hd
      subst hq
      exact ⟨q :: qs, by simp [pyFloat, Except.bind, hqs]⟩

theorem avg_difficulty_clean (v : PyVal) (h : cleanB v = true) :
    ∃ q, avg_difficulty v = Except.ok q := by
  cases v with
  | str s => exact ⟨0, rfl⟩
  | list l =>
    rw [avg_difficulty]
    by_cases he : l.isEmpty
    · rw [if_pos he]
      exact ⟨0, rfl⟩
    · rw [if_neg he]
      obtain ⟨qs, hqs⟩ := listFloats_clean l (by simpa [cleanB] using h)
      rw [hqs]
      exact ⟨_, rfl⟩

theorem sum_skip_none_clean (v : PyVal) (h : cleanB v = true) :
    ∃ q, sum_skip_none v = Except.ok q := by
  cases v with
  | str s => exact ⟨0, rfl⟩
  | list l =>
    rw [sum_skip_none]
    obtain ⟨qs, hqs⟩ := listFloats_clean l (by simpa [cleanB] using h)
    rw [hqs]
    exact ⟨_, rfl⟩

theorem exists_list_of_cleanListB {v : PyVal} (h : cleanListB v = true) :
    ∃ l, v = PyVal.list l ∧ l.all isNumOrNull = true := by
  cases v with
  | list l => exact ⟨l, rfl, by simpa [cleanListB] using h⟩
  | str s => simp [cleanListB] at h

theorem scoreRow_clean (r : Row) (w : Weights) (h : rowCleanB r = true) :
    ∃ sc, scoreRow r w = Except.ok sc := by
  rw [rowCleanB] at h
  simp only [Bool.and_eq_true] at h
  obtain ⟨⟨⟨⟨⟨⟨h1, h2⟩, h3⟩, h4⟩, h5⟩, h6⟩, h7⟩ := h
  obtain ⟨vl, hvl, hvla⟩ := exists_list_of_cleanListB h1
  obtain ⟨al, hal, hala⟩ := exists_list_of_cleanListB h2
  obtain ⟨pl, hpl, hpla⟩ := exists_list_of_cleanListB h3
  obtain ⟨dq, hdq⟩ := avg_difficulty_clean _ h4
  obtain ⟨riq, hriq⟩ := sum_skip_none_clean _ h5
  obtain ⟨ldq, hldq⟩ := sum_skip_none_clean _ h6
  obtain ⟨tlq, htlq⟩ := sum_skip_none_clean _ h7
  simp only [scoreRow, hvl, hal, hpl, total_value_clean vl al pl hvla hala hpla,
    hdq, hriq, hldq, htlq, Except.bind]
  exact ⟨_, rfl⟩

theorem calcList_clean (w : Weights) : ∀ data : List Row,
    (∀ r ∈ data, rowCleanB r = true) → (calcList data w).2 = none
  | [], _ => rfl
  | r :: rs, h => by
    obtain ⟨sc, hsc⟩ := scoreRow_clean r w (h r (List.mem_cons_self _ _))
    rw [calcList, hsc]
    exact calcList_clean w rs (fun x hx => h x (List.mem_cons_of_mem r hx))

/-- C1 (amended): only `None` entries inside a numeric collection are
skipped; when every decoded numeric collection entry of every row is a
number or `None`, calculate_scores completes without raising.  A
non-numeric text entry inside a numeric sequence is not skipped but
raises, aborting calculate_scores (see the counterexample). -/
theorem C1_clean_rows_never_raise (data : List Row) (w : Option Weights)
    (h : ∀ r ∈ data, rowCleanB r = true) :
    ∃ out, calculate_scores data w = Except.ok out := by
  have hnone : (calcList data (w.getD default_weights)).2 = none :=
    calcList_clean (w.getD default_weights) data h
  simp only [calculate_scores]
  rcases hc : calcList data (w.getD default_weights) with ⟨res, err⟩
  rw [hc] at hnone
  simp only at hnone
  subst hnone
  exact ⟨_, rfl⟩

/-- Witness for C1 at the concrete clean row `c2Row`. -/
theorem C1_clean_rows_never_raise_witness :
    ∃ out, calculate_scores [c2Row] none = Except.ok out :=
  C1_clean_rows_never_raise [c2Row] none (by decide)

/-- C1 counterexample: a single text entry soft inside the
extraction-difficulty list makes `calculate_scores` raise `ValueError`
(no result) instead of skipping the entry and completing. -/
theorem C1_counterexample :
    (calculate_scores [c1Row] none).toOption = none := by
  simp [calculate_scores, calcList, scoreRow, safe_eval, total_value, totalGo, resTerm,
    idx_float, pyFloat, pyLen, pyGetE, avg_difficulty, listFloats, sum_skip_none,
    parseFloat?, stripSign, splitDot, isDigitChar, natOfDigits, c1Row, baseRow,
    Except.bind, Except.toOption]

/-- C4 (amended): present, non-empty, non-bracket-delimited text is
returned by the parser as the bare scalar string itself, not wrapped
into a one-element sequence; since every aggregation first checks for a
list, such a value contributes nothing, so a hazard_severity cell
holding the bare word high yields hazard score 0 (not 3). -/
theorem C4_scalar_text_is_bare_string (s : String) :
    safe_eval (some (RawText.scalar s)) = PyVal.str s
    ∧ hazard_score (PyVal.str s) = 0 :=
  ⟨rfl, rfl⟩

/-- C4 counterexample: for the row whose hazard_severity cell is the
bare word high, the parsed value is not the one-element list and the
resulting hazard score is 0, not 3. -/
theorem C4_counterexample :
    safe_eval c4Row.hazard_severity ≠ PyVal.list [Entry.str "high"]
    ∧ (calculate_scores [c4Row] none).toOption.map
        (fun l => l.map (fun sc => sc.hazard_score)) = some [0] := by
  constructor
  · simp [c4Row, baseRow, safe_eval]
  · simp [calculate_scores, calcList, scoreRow, safe_eval, total_value, totalGo, resTerm,
      idx_float, pyFloat, pyLen, pyGetE, avg_difficulty, listFloats, sum_skip_none,
      severity_map, hazard_score, get_float, parseFloat?, stripSign, splitDot, isDigitChar,
      natOfDigits, stableSortDesc, insertDesc, c4Row, baseRow, Except.bind, Except.toOption,
      default_weights]

theorem scoreRow_ok_fields {r : Row} {w : Weights} {sc : Scored}
    (h : scoreRow r w = Except.ok sc) :
    sc.row = r.row ∧ sc.col = r.col ∧ sc.lat = r.lat.getD "0.0"
    ∧ sc.hazard_score = hazard_score (safe_eval r.hazard_severity) := by
  unfold scoreRow at h
  cases h1 : total_value (safe_eval r.resource_economic_value)
      (safe_eval r.resource_abundance) (safe_eval r.resource_purity) with
  | error e => rw [h1] at h; simp [Except.bind] at h
  | ok tv =>
  rw [h1] at h
  cases h2 : avg_difficulty (safe_eval r.resource_extraction_difficulty) with
  | error e => rw [h2] at h; simp [Except.bind] at h
  | ok diff =>
  rw [h2] at h
  cases h3 : sum_skip_none (safe_eval r.resource_environmental_impact) with
  | error e => rw [h3] at h; simp [Except.bind] at h
  | ok ri =>
  rw [h3] at h
  cases h4 : sum_skip_none (safe_eval r.life_density) with
  | error e => rw [h4] at h; simp [Except.bind] at h
  | ok ld =>
  rw [h4] at h
  cases h5 : sum_skip_none (safe_eval r.life_threat_level) with
  | error e => rw [h5] at h; simp [Except.bind] at h
  | ok tl =>
  rw [h5] at h
  simp only [Except.bind, Except.ok.injEq] at h
  subst h
  exact ⟨rfl, rfl, rfl, rfl⟩

theorem calculate_scores_singleton_ok {r : Row} {w : Option Weights} {out : List Scored}
    (h : calculate_scores [r] w = Except.ok out) :
    ∃ sc, scoreRow r (w.getD default_weights) = Except.ok sc ∧ out = [sc] := by
  simp only [calculate_scores] at h
  cases hsr : scoreRow r (w.getD default_weights) with
  | error e =>
    simp only [calcList, hsr] at h
    simp at h
  | ok sc =>
    simp only [calcList, hsr] at h
    simp only [stableSortDesc, insertDesc, Except.ok.injEq] at h
    exact ⟨sc, rfl, h.symm⟩

/-- C6 (amended): among the scalar fields, only coral cover goes through
the defaulting conversion, which yields 0.0 exactly when the text is
empty or unparsable; the mining variant does not coerce latitude at all
but passes the raw text through (default the text 0.0), and the app
variant converts with bare float(), raising on missing or non-numeric
text (see the counterexample). -/
theorem C6_scalar_defaults (s : String) (hs : s = "" ∨ parseFloat? s = none) :
    get_float s = 0
    ∧ (∀ (r : Row) (w : Option Weights) (out : List Scored),
        calculate_scores [r] w = Except.ok out →
        out.map (fun sc => sc.lat) = [r.lat.getD "0.0"]) := by
  constructor
  · rcases hs with hs | hs
    · simp [get_float, hs]
    · by_cases he : s = ""
      · simp [get_float, he]
      · simp [get_float, he, hs]
  · intro r w out h
    obtain ⟨sc, hsr, hout⟩ := calculate_scores_singleton_ok h
    subst hout
    rw [List.map_singleton, (scoreRow_ok_fields hsr).2.2.1]

/-- Witness for C6 at the unparsable text abc and the concrete row
`c4Row`. -/
theorem C6_scalar_defaults_witness :
    get_float "abc" = 0 :=
  (C6_scalar_defaults "abc" (Or.inr (by decide))).1

/-- C6 counterexample: a row whose lat cell holds the non-numeric text
abc is scored by the mining variant with the raw text (not 0.0) in the
lat field, and makes the app variant raise instead of parsing. -/
theorem C6_counterexample :
    (calculate_scores [c6Row] none).toOption.map (fun l => l.map (fun sc => sc.lat))
      = some [
"abc"]
    ∧ (app_calculate_scores [c6Row]
        { value := 1, difficulty := 1, impact := 2, hazard := 2 }).toOption = none := by
  constructor
  · simp [calculate_scores, calcList, scoreRow, safe_eval, total_value, totalGo, resTerm,
      idx_float, pyFloat, pyLen, pyGetE, avg_difficulty, listFloats, sum_skip_none,
      severity_map, hazard_score, get_float, parseFloat?, stripSign, splitDot, isDigitChar,
      natOfDigits, stableSortDesc, insertDesc, c6Row, baseRow, Except.bind, Except.toOption,
      default_weights]
  · simp [app_calculate_scores, appCalcGo, app_scoreRow, safe_eval, total_value, totalGo,
      resTerm, idx_float, pyFloat, pyLen, pyGetE, avg_difficulty, listFloats, sum_skip_none,
      severity_map, hazard_score, get_float, parseFloat?, parseInt?, stripSign, splitDot,
      isDigitChar, natOfDigits, pyFloatField, pyIntField, stableSortDesc, insertDesc,
      c6Row, baseRow, Except.bind, Except.toOption]

/-- C2: the concrete scenario: resource value, abundance, purity
sequences with the single entries 10, 2 and one half, extraction
difficulty 4 and 6, hazard severities high and low, all environmental
and coral inputs empty, weights value 1, difficulty 1, impact 2,
hazard 2, give total value 10, difficulty 5, hazard score 4 and final
score minus 3. -/
theorem C2_concrete_scenario :
    calculate_scores [c2Row] (some { value := 1, difficulty := 1, impact := 2, hazard := 2 })
      = Except.ok [c2Scored]
    ∧ c2Scored.total_value = 10 ∧ c2Scored.difficulty = 5
    ∧ c2Scored.hazard_score = 4 ∧ c2Scored.score = -3 := by
  refine ⟨?_, rfl, rfl, rfl, rfl⟩
  simp [calculate_scores, calcList, scoreRow, safe_eval, total_value, totalGo, resTerm,
    idx_float, pyFloat, pyLen, pyGetE, avg_difficulty, listFloats, sum_skip_none,
    severity_map, hazard_score, get_float, parseFloat?, stripSign, splitDot, isDigitChar,
    natOfDigits, stableSortDesc, insertDesc, c2Row, c2Scored, baseRow, Except.bind,
    Scored.mk.injEq]
  norm_num

/-- C7: a missing input file is reported as the failure result False
rather than an exception, loading an existing table succeeds, and an
empty dataset is valid: scoring it returns the empty ranked sequence. -/
theorem C7_missing_file_vs_empty :
    (load_data none).1 = false
    ∧ (∀ rows : List Row, (load_data (some rows)).1 = true ∧ (load_data (some rows)).2 = rows)
    ∧ (∀ w : Option Weights, calculate_scores [] w = Except.ok []) :=
  ⟨rfl, fun _ => ⟨rfl, rfl⟩, fun _ => rfl⟩

/-- C8: scoring is deterministic and idempotent: a second run of
calculate_scores on the optimizer state left by a first run, with the
same weights, returns the same result and leaves the same state, and
the returned result is a pure function of the loaded data and the
weights. -/
theorem C8_deterministic_idempotent (s : OptimizerState) (w : Option Weights) :
    (calculate_scores_run ((calculate_scores_run s w).1) w).2 = (calculate_scores_run s w).2
    ∧ (calculate_scores_run ((calculate_scores_run s w).1) w).1 = (calculate_scores_run s w).1
    ∧ (calculate_scores_run s w).2 = calculate_scores s.data w := by
  rcases hc : calcList s.data (w.getD default_weights) with ⟨res, err⟩
  cases err <;> simp [calculate_scores_run, calculate_scores, hc]

/-- C9: the engine-embedded default weight configuration (used when the
caller passes no weights) is value 1, difficulty 1, impact 2, hazard 2
(the same configuration the grid endpoint passes), while the CLI entry
point defaults to value 1, difficulty 1, impact 5, hazard 10. -/
theorem C9_weight_defaults :
    (∀ data : List Row, calculate_scores data none
        = calculate_scores data (some { value := 1, difficulty := 1, impact := 2, hazard := 2 }))
    ∧ default_weights = { value := 1, difficulty := 1, impact := 2, hazard := 2 }
    ∧ grid_weights = { value := 1, difficulty := 1, impact := 2, hazard := 2 }
    ∧ cli_default_weights = { value := 1, difficulty := 1, impact := 5, hazard := 10 } :=
  ⟨fun _ => rfl, rfl, rfl, rfl⟩

theorem severity_map_pos (e : Entry) (z : ℤ) (h : severity_map e = some z) : 0 < z := by
  cases e with
  | null => simp [severity_map] at h
  | num q => simp [severity_map] at h
  | str s =>
    simp only [severity_map] at h
    split_ifs at h <;> simp only [Option.some.injEq] at h <;> omega

theorem hazard_foldl_eq (l : List Entry) (acc : ℤ) :
    List.foldl (fun acc h =>
        match severity_map h with
        | some w => acc + w
        | none => acc) acc l
      = acc + (l.map (fun e => (severity_map e).getD 0)).sum := by
  induction l generalizing acc with
  | nil => simp
  | cons e es ih =>
    rw [List.foldl_cons, List.map_cons, List.sum_cons]
    cases hse : severity_map e with
    | none => rw [ih]; simp [hse]
    | some z => rw [ih]; simp [hse]; ring

theorem hazard_score_eq_sum (l : List Entry) :
    hazard_score (PyVal.list l) = (l.map (fun e => (severity_map e).getD 0)).sum := by
  rw [hazard_score, hazard_foldl_eq, zero_add]

theorem hazard_score_nonneg (v : PyVal) : 0 ≤ hazard_score v := by
  cases v with
  | str s => exact le_refl 0
  | list l =>
    rw [hazard_score_eq_sum]
    apply List.sum_nonneg
    intro x hx
    obtain ⟨e, _, he⟩ := List.mem_map.mp hx
    subst he
    cases hse : severity_map e with
    | none => simp [hse]
    | some z =>
      simp only [hse, Option.getD_some]
      exact le_of_lt (severity_map_pos e z hse)

theorem mem_calcList {w : Weights} :
    ∀ {data : List Row} {sc : Scored},
      sc ∈ (calcList data w).1 → ∃ r ∈ data, scoreRow r w = Except.ok sc := by
  intro data
  induction data with
  | nil => intro sc h; simp [calcList] at h
  | cons r rs ih =>
    intro sc h
    rw [calcList] at h
    cases hsr : scoreRow r w with
    | error e => rw [hsr] at h; simp at h
    | ok sc2 =>
      rw [hsr] at h
      simp only [List.mem_cons] at h
      rcases h with h | h
      · subst h
        exact ⟨r, List.mem_cons_self _ _, hsr⟩
      · obtain ⟨r2, hr2, hsc⟩ := ih h
        exact ⟨r2, List.mem_cons_of_mem r hr2, hsc⟩

/-- C10: every scored record produced by a successful run has a
non-negative hazard score; the hazard aggregation is exactly the sum of
the fixed lookup over the decoded severity list, where the lookup gives
the positive weights low 1, medium 2, high 3, extreme 5 and nothing for
every other value (unknown strings, numbers, `None`). -/
theorem C10_hazard_score_invariant :
    (∀ (data : List Row) (w : Option Weights) (out : List Scored),
      calculate_scores data w = Except.ok out → ∀ sc ∈ out, 0 ≤ sc.hazard_score)
    ∧ (∀ l : List Entry, hazard_score (PyVal.list l)
        = (l.map (fun e => (severity_map e).getD 0)).sum)
    ∧ (∀ (e : Entry) (z : ℤ), severity_map e = some z → 0 < z)
    ∧ severity_map (Entry.str "low") = some 1
    ∧ severity_map (Entry.str "medium") = some 2
    ∧ severity_map (Entry.str "high") = some 3
    ∧ severity_map (Entry.str "extreme") = some 5
    ∧ (∀ s : String, s ≠ "low" → s ≠ "medium" → s ≠ "high" → s ≠ "extreme" →
        severity_map (Entry.str s) = none)
    ∧ (∀ q : ℚ, severity_map (Entry.num q) = none)
    ∧ severity_map Entry.null = none := by
  refine ⟨?_, hazard_score_eq_sum, severity_map_pos, by decide, by decide, by decide,
    by decide, ?_, fun _ => rfl, rfl⟩
  · intro data w out h sc hsc
    simp only [calculate_scores] at h
    rcases hc : calcList data (w.getD default_weights) with ⟨res, err⟩
    rw [hc] at h
    cases err with
    | some e => simp at h
    | none =>
      simp only [Except.ok.injEq] at h
      subst h
      have hmem : sc ∈ (calcList data (w.getD default_weights)).1 := by
        rw [hc]
        exact (stableSortDesc_perm _ res).mem_iff.mp hsc
      obtain ⟨r, _, hsr⟩ := mem_calcList hmem
      rw [(scoreRow_ok_fields hsr).2.2.2]
      exact hazard_score_nonneg _
  · intro s h1 h2 h3 h4
    simp [severity_map, h1, h2, h3, h4]

/-- Witness for C10 at the concrete run on `c2Row`. -/
theorem C10_hazard_score_invariant_witness : 0 ≤ c2Scored.hazard_score :=
  C10_hazard_score_invariant.1 [c2Row]
    (some { value := 1, difficulty := 1, impact := 2, hazard := 2 }) [c2Scored]
    (by
      simp [calculate_scores, calcList, scoreRow, safe_eval, total_value, totalGo, resTerm,
        idx_float, pyFloat, pyLen, pyGetE, avg_difficulty, listFloats, sum_skip_none,
        severity_map, hazard_score, get_float, parseFloat?, stripSign, splitDot, isDigitChar,
        natOfDigits, stableSortDesc, insertDesc, c2Row, c2Scored, baseRow, Except.bind,
        Scored.mk.injEq]
      norm_num)
    c2Scored (List.mem_singleton.mpr rfl)
